import Mathlib

/-!
Verification of the rfesi session/request core against its specification.

This file is a shallow embedding of the core of the `rfesi` crate
(`src/client.rs`, `src/builders.rs`, `src/errors.rs`, `src/jwt_util.rs`,
`src/pkce.rs`).  Pure functions become Lean functions; the stateful `Esi`
struct becomes an explicit record threaded through each operation; network
I/O is modelled by passing the received HTTP response (status, the two
error-limit headers, and the parsed body) as an argument; the system clock
is modelled by an explicit `now` argument (the Rust code reads the clock
through `current_time_millis`).  Fallible Rust code returning
`EsiResult<T>` becomes `Except EsiError` / an `Outcome` type; a reachable
`unwrap`/`expect` on a `None`/`Err` value is modelled by the distinguished
`Outcome.panicked` result.  Machine integers (`i32`, `i64`, `u64`) are
modelled as `Int`/`Nat`, with twos-complement wrapping (`wrap64`) made
explicit at the arithmetic sites that combine unbounded response data with
the clock.
-/

namespace Rfesi

/-- Errors of `src/errors.rs` (`enum EsiError`), restricted to the variants
reachable in the modelled core.  Payloads irrelevant to the claims (wrapped
library error values) are dropped. -/
inductive EsiError where
  | EmptyClientValue (field : String)
  | MissingAuthenticationFlowInformation
  | EmptySpec
  | InvalidJWT (reason : String)
  | JwtValidationFailed
  | InvalidStatusCode (status : Nat)
  | InvalidUserAgentHeader
  | HttpMethodError
  | MissingAuthentication
  | UnknownOperationID (opId : String)
  | FailedSpecParse (loc : String)
  | FailedJsonParse
  | HeaderParseError (header : String)
  | ErrorLimited (forMillis : Int)
  | AccessTokenExpired
  | NoRefreshTokenAvailable
deriving DecidableEq, Repr

/-- Result of running one modelled operation: a typed error, a normal
result, or a Rust panic (an `unwrap`/`expect` that aborted the process). -/
inductive Outcome (α : Type) where
  | panicked
  | err (e : EsiError)
  | ok (a : α)
deriving DecidableEq, Repr

/-- Whether an `Outcome` is a normal result. -/
def Outcome.isOk {α : Type} : Outcome α → Bool
  | .ok _ => true
  | _ => false

/-- Model of `struct ErrorLimitState` of `src/client.rs`: `remaining_limit: i32`,
`expires_at_millis: i64`. -/
structure ErrorLimitState where
  remainingLimit : Int
  expiresAtMillis : Int
deriving DecidableEq, Repr

/-- Model of `enum ErrorLimitStatus` of `src/client.rs`. -/
inductive ErrorLimitStatus where
  | limited (forMillis : Int)
  | notLimited
deriving DecidableEq, Repr

/-- Twos-complement wrapping of an `i64` arithmetic result (release-mode
Rust semantics). -/
def wrap64 (x : Int) : Int := (x + 2 ^ 63) % 2 ^ 64 - 2 ^ 63

/-- Conversion `u64 as i64`. -/
def i64OfU64 (n : Nat) : Int := if n < 2 ^ 63 then (n : Int) else (n : Int) - 2 ^ 64

/-- Value of a decimal digit character. -/
def digitVal (c : Char) : Option Nat :=
  if c.isDigit then some (c.toNat - 48) else none

/-- Accumulate decimal digits; fails on any non-digit. -/
def parseDigitsAux : List Char → Nat → Option Nat
  | [], acc => some acc
  | c :: rest, acc =>
    match digitVal c with
    | some d => parseDigitsAux rest (acc * 10 + d)
    | none => none

/-- Parse a nonempty all-digit character list. -/
def parseNatDigits (cs : List Char) : Option Nat :=
  if cs.isEmpty then none else parseDigitsAux cs 0

/-- Rust `str::parse` for signed integers: optional leading sign, then one
or more decimal digits, nothing else. -/
def parseIntRust (s : String) : Option Int :=
  match s.data with
  | [] => none
  | '+' :: rest => (parseNatDigits rest).map (fun n => (n : Int))
  | '-' :: rest => (parseNatDigits rest).map (fun n => -(n : Int))
  | cs => (parseNatDigits cs).map (fun n => (n : Int))

/-- Rust `str::parse::<i32>`: out-of-range values are a `ParseIntError`. -/
def parseI32 (s : String) : Option Int :=
  (parseIntRust s).bind fun n =>
    if -(2 ^ 31) ≤ n ∧ n ≤ 2 ^ 31 - 1 then some n else none

/-- Rust `str::parse::<i64>`: out-of-range values are a `ParseIntError`. -/
def parseI64 (s : String) : Option Int :=
  (parseIntRust s).bind fun n =>
    if -(2 ^ 63) ≤ n ∧ n ≤ 2 ^ 63 - 1 then some n else none

/-- Model of `Esi::process_error_limit_headers` (src/client.rs:651).  The two header
values are given as optional strings (`None` = header absent); the shared
`error_limit_state` cell is the `st` argument and the updated cell is
returned. -/
def processErrorLimitHeaders (now : Int) (remainHeader resetHeader : Option String)
    (st : Option ErrorLimitState) : Except EsiError (Option ErrorLimitState) :=
  match remainHeader, resetHeader with
  | some remain, some reset =>
    match parseI32 remain with
    | none => .error (.HeaderParseError "x-esi-error-limit-remain")
    | some remainingLimit =>
      match parseI64 reset with
      | none => .error (.HeaderParseError "x-esi-error-limit-reset")
      | some resetsIn =>
        .ok (some { remainingLimit, expiresAtMillis := wrap64 (now + resetsIn * 1000) })
  | _, _ => .ok st

/-- Model of `Esi::is_error_limited` (src/client.rs:691). -/
def isErrorLimited (now : Int) (st : Option ErrorLimitState) : ErrorLimitStatus :=
  match st with
  | none => .notLimited
  | some state =>
    if state.remainingLimit > 0 then .notLimited
    else
      let remainingTime := wrap64 (state.expiresAtMillis - now)
      if remainingTime < 0 then .notLimited
      else .limited remainingTime

/-- Model of `Esi::assert_not_error_limited` (src/client.rs:681). -/
def assertNotErrorLimited (now : Int) (st : Option ErrorLimitState) : Except EsiError Unit :=
  match isErrorLimited now st with
  | .limited forMillis => .error (.ErrorLimited forMillis)
  | .notLimited => .ok ()

theorem wrap64_eq_self {x : Int} (h₁ : -(2 ^ 63) ≤ x) (h₂ : x < 2 ^ 63) : wrap64 x = x := by
  unfold wrap64
  have hlo : 0 ≤ x + 2 ^ 63 := by omega
  have hhi : x + 2 ^ 63 < 2 ^ 64 := by omega
  rw [Int.emod_eq_of_lt hlo hhi]
  omega

/-- Model of `serde_json::Value`.  Objects are association lists in the
iteration order of the underlying map; numbers are restricted to the
integers, which is all the modelled code inspects. -/
inductive Json where
  | null
  | bool (b : Bool)
  | num (n : Int)
  | str (s : String)
  | arr (xs : List Json)
  | obj (kvs : List (String × Json))

/-- First value bound to a key in an object association list. -/
def lookupKey : List (String × Json) → String → Option Json
  | [], _ => none
  | (k, v) :: rest, key => if k = key then some v else lookupKey rest key

/-- Model of `serde_json::Value` string indexing (`value["key"]`): yields
`Null` when the value is not an object or the key is absent. -/
def Json.index (j : Json) (key : String) : Json :=
  match j with
  | .obj kvs => (lookupKey kvs key).getD .null
  | _ => .null

/-- Model of `Value::as_object`. -/
def Json.asObj : Json → Option (List (String × Json))
  | .obj kvs => some kvs
  | _ => none

/-- Model of `Value::as_str`. -/
def Json.asStr : Json → Option String
  | .str s => some s
  | _ => none

/-- Model of `Value::as_array`. -/
def Json.asArr : Json → Option (List Json)
  | .arr xs => some xs
  | _ => none

/-- Model of integer extraction from a `Value` (`as_i64`). -/
def Json.asInt : Json → Option Int
  | .num n => some n
  | _ => none

/-- Whether a `Json` value is `Null` (for an absent key, `Json.index`
yields `Null`, so this doubles as the absence test). -/
def Json.isNull : Json → Bool
  | .null => true
  | _ => false

/-- Model of `struct EsiBuilder` of `src/builders.rs`. -/
structure EsiBuilder where
  version : Option String := none
  clientId : Option String := none
  clientSecret : Option String := none
  applicationAuth : Option Bool := none
  callbackUrl : Option String := none
  baseApiUrl : Option String := none
  authorizeUrl : Option String := none
  tokenUrl : Option String := none
  specUrl : Option String := none
  scope : Option String := none
  accessToken : Option String := none
  accessExpiration : Option Int := none
  refreshToken : Option String := none
  userAgent : Option String := none
  httpTimeout : Option Nat := none
  spec : Option Json := none

/-- Model of `struct Esi` of `src/client.rs`.  The `reqwest::Client` field
carries no observable state of its own and is omitted; the shared
`Arc<RwLock<Option<ErrorLimitState>>>` cell becomes the `errorLimitState`
field (the model is single-session, matching the per-instance cell). -/
structure Esi where
  version : String
  clientId : Option String
  clientSecret : Option String
  callbackUrl : Option String
  baseApiUrl : String
  authorizeUrl : String
  tokenUrl : String
  specUrl : String
  scope : String
  applicationAuth : Bool
  accessToken : Option String
  accessExpiration : Option Int
  refreshToken : Option String
  spec : Option Json
  errorLimitState : Option ErrorLimitState

/-- Validity of a string as an HTTP header value (the byte test of the
`http` crate used by `HeaderValue::from_str`): horizontal tab or any byte
that is at least 32 and is not DEL. -/
def validHeaderString (s : String) : Bool :=
  s.data.all fun c => c = '\t' || (32 ≤ c.toNat && c.toNat ≠ 127)

/-- Model of `EsiBuilder::construct_client` (src/builders.rs:200): fails
when `user_agent` is unset, or when it is not a valid header value. -/
def constructClient (b : EsiBuilder) : Except EsiError Unit :=
  match b.userAgent with
  | none => .error (.EmptyClientValue "user_agent")
  | some ua => if validHeaderString ua then .ok () else .error .InvalidUserAgentHeader

/-- Model of `Esi::from_builder` (src/client.rs:127). -/
def fromBuilder (b : EsiBuilder) : Except EsiError Esi :=
  match constructClient b with
  | .error e => .error e
  | .ok _ =>
    let version := b.version.getD "latest"
    .ok
      { version
        clientId := b.clientId
        clientSecret := b.clientSecret
        callbackUrl := b.callbackUrl
        baseApiUrl := b.baseApiUrl.getD "https://esi.evetech.net/"
        authorizeUrl := b.authorizeUrl.getD "https://login.eveonline.com/v2/oauth/authorize"
        tokenUrl := b.tokenUrl.getD "https://login.eveonline.com/v2/oauth/token"
        specUrl := b.specUrl.getD ("https://esi.evetech.net/_" ++ version ++ "/swagger.json")
        scope := b.scope.getD ""
        applicationAuth := b.applicationAuth.getD false
        accessToken := b.accessToken
        accessExpiration := b.accessExpiration
        refreshToken := b.refreshToken
        spec := b.spec
        errorLimitState := none }

/-- Model of `Esi::check_client_info` (src/client.rs:190): `client_id` and
`callback_url` are checked in that order, then exactly one of
client-secret / application-auth must be selected. -/
def checkClientInfo (e : Esi) : Except EsiError Unit :=
  if e.clientId.isNone then .error (.EmptyClientValue "client_id")
  else if e.callbackUrl.isNone then .error (.EmptyClientValue "callback_url")
  else if e.clientSecret.isNone then
    if !e.applicationAuth then .error .MissingAuthenticationFlowInformation else .ok ()
  else if e.applicationAuth then .error .MissingAuthenticationFlowInformation
  else .ok ()

/-- Model of `Esi::get_auth_headers` (src/client.rs:272).  The Basic-auth
header it builds is base64 of ASCII and always a valid header value, so
only the `check_client_info` call is observable. -/
def getAuthHeaders (e : Esi) : Except EsiError Unit :=
  checkClientInfo e

/-- Model of `struct Pkce` of `src/pkce.rs`. -/
structure Pkce where
  challenge : String
  verifier : String
deriving DecidableEq, Repr

/-- Model of `struct AuthenticationInformation` of `src/client.rs`. -/
structure AuthenticationInformation where
  authorizationUrl : String
  state : String
  pkceVerifier : Option String
deriving DecidableEq, Repr

/-- Model of `Esi::get_authorize_url` (src/client.rs:237).  The anti-CSRF
`state` string and the PKCE pair are produced from randomness and passed
in as arguments. -/
def getAuthorizeUrl (e : Esi) (state : String) (pk : Pkce) :
    Except EsiError AuthenticationInformation :=
  match checkClientInfo e with
  | .error err => .error err
  | .ok _ =>
    let url := e.authorizeUrl ++ "?response_type=code&redirect_uri=" ++
      e.callbackUrl.getD "" ++ "&client_id=" ++ e.clientId.getD "" ++
      "&scope=" ++ e.scope ++ "&state=" ++ state
    if e.clientSecret.isNone && e.applicationAuth then
      .ok { authorizationUrl := url ++ "&code_challenge=" ++ pk.challenge ++
              "&code_challenge_method=S256"
            state
            pkceVerifier := some pk.verifier }
    else
      .ok { authorizationUrl := url, state, pkceVerifier := none }

/-- Model of `struct TokenClaims` of `src/prelude.rs`. -/
structure TokenClaims where
  aud : List String
  azp : String
  exp : Int
  iat : Int
  iss : String
  jti : String
  kid : String
  name : String
  owner : String
  region : String
  scp : Option Json
  sub : String
  tenant : String
  tier : String

/-- Model of `struct AuthenticateResponse` of `src/client.rs`:
`access_token: String`, `expires_in: u64`, `refresh_token: Option<String>`
(`null` deserializes to `None`). -/
structure AuthenticateResponse where
  accessToken : String
  expiresIn : Nat
  refreshToken : Option String
deriving DecidableEq, Repr

/-- Model of `struct RefreshTokenAuthenticateResponse` of `src/client.rs`:
the `refresh_token` field is mandatory here. -/
structure RefreshTokenAuthenticateResponse where
  accessToken : String
  expiresIn : Nat
  refreshToken : String
deriving DecidableEq, Repr

/-- Model of one received HTTP response as an operation observes it: the
status code, the two error-limit headers (absent = `none`), and the body
after JSON deserialization into the target type (`none` = the
deserialization failed). -/
structure HttpResponse (β : Type) where
  status : Nat
  remainHeader : Option String
  resetHeader : Option String
  body : Option β
deriving DecidableEq, Repr

/-- Model of `reqwest::StatusCode::is_success` (2xx). -/
def statusIsSuccess (s : Nat) : Bool := 200 ≤ s && s < 300

/-- Model of `enum RequestType` of `src/client.rs`. -/
inductive RequestType where
  | public
  | authenticated
deriving DecidableEq, Repr

/-- The three token fields of the session, read off as a unit. -/
def tokenFields (e : Esi) : Option String × Option Int × Option String :=
  (e.accessToken, e.accessExpiration, e.refreshToken)

/-- Model of `Esi::authenticate` (src/client.rs:335), under the default
`validate_jwt` feature.  `resp` is the token-endpoint response;
`jwtResult` is the outcome of the (network-dependent) `validate_jwt` call
on the returned access token.  The `unwrap`s of `client_id` and
`pkce_verifier` while building the form body in application-auth mode are
the panic cases.  Note that the status check precedes
`process_error_limit_headers` in this operation. -/
def authenticate (e : Esi) (pkceVerifier : Option String)
    (resp : HttpResponse AuthenticateResponse)
    (jwtResult : Except EsiError TokenClaims) (now : Int) :
    Outcome (Option TokenClaims) × Esi :=
  match assertNotErrorLimited now e.errorLimitState with
  | .error err => (.err err, e)
  | .ok _ =>
    if e.applicationAuth ∧ (e.clientId.isNone ∨ pkceVerifier.isNone) then (.panicked, e)
    else
      match getAuthHeaders e with
      | .error err => (.err err, e)
      | .ok _ =>
        if resp.status ≠ 200 then (.err (.InvalidStatusCode resp.status), e)
        else
          match processErrorLimitHeaders now resp.remainHeader resp.resetHeader
              e.errorLimitState with
          | .error err => (.err err, e)
          | .ok newLimit =>
            let e1 := { e with errorLimitState := newLimit }
            match resp.body with
            | none => (.err .FailedJsonParse, e1)
            | some data =>
              match jwtResult with
              | .error err => (.err err, e1)
              | .ok claims =>
                (.ok (some claims),
                 { e1 with
                    accessToken := some data.accessToken
                    accessExpiration := some (wrap64 (i64OfU64 data.expiresIn * 1000 + now))
                    refreshToken := data.refreshToken })

/-- Model of `Esi::refresh_access_token` (src/client.rs:441).  Here
`process_error_limit_headers` runs before the status check.  The
`client_id` `unwrap` in application-auth mode is the panic case. -/
def refreshAccessToken (e : Esi) (refreshTokenArg : Option String)
    (resp : HttpResponse RefreshTokenAuthenticateResponse) (now : Int) :
    Outcome Unit × Esi :=
  match assertNotErrorLimited now e.errorLimitState with
  | .error err => (.err err, e)
  | .ok _ =>
    match refreshTokenArg.orElse (fun _ => e.refreshToken) with
    | none => (.err .NoRefreshTokenAvailable, e)
    | some _token =>
      if e.applicationAuth ∧ e.clientId.isNone then (.panicked, e)
      else
        match getAuthHeaders e with
        | .error err => (.err err, e)
        | .ok _ =>
          match processErrorLimitHeaders now resp.remainHeader resp.resetHeader
              e.errorLimitState with
          | .error err => (.err err, e)
          | .ok newLimit =>
            let e1 := { e with errorLimitState := newLimit }
            if resp.status ≠ 200 then (.err (.InvalidStatusCode resp.status), e1)
            else
              match resp.body with
              | none => (.err .FailedJsonParse, e1)
              | some data =>
                (.ok (),
                 { e1 with
                    accessToken := some data.accessToken
                    accessExpiration := some (wrap64 (i64OfU64 data.expiresIn * 1000 + now))
                    refreshToken := some data.refreshToken })

/-- Model of `Esi::update_spec` (src/client.rs:175): headers are processed
before the status check; on success the stored spec is replaced wholesale. -/
def updateSpec (e : Esi) (resp : HttpResponse Json) (now : Int) : Outcome Unit × Esi :=
  match assertNotErrorLimited now e.errorLimitState with
  | .error err => (.err err, e)
  | .ok _ =>
    match processErrorLimitHeaders now resp.remainHeader resp.resetHeader
        e.errorLimitState with
    | .error err => (.err err, e)
    | .ok newLimit =>
      let e1 := { e with errorLimitState := newLimit }
      if !statusIsSuccess resp.status then (.err (.InvalidStatusCode resp.status), e1)
      else
        match resp.body with
        | none => (.err .FailedJsonParse, e1)
        | some data => (.ok (), { e1 with spec := some data })

/-- Model of `Esi::query` (src/client.rs:510).  `methodOk` abstracts
`Method::from_str(method)` (false = invalid HTTP method string); `resp` is
the response, with its body already deserialized into the caller target
type `τ` (`none` = deserialization failure).  In authenticated mode, a
stored token with no stored expiration hits
`self.access_expiration.unwrap()` and panics. -/
def query {τ : Type} (e : Esi) (requestType : RequestType) (methodOk : Bool)
    (resp : HttpResponse τ) (now : Int) : Outcome τ × Esi :=
  match assertNotErrorLimited now e.errorLimitState with
  | .error err => (.err err, e)
  | .ok _ =>
    if requestType = .authenticated ∧ e.accessToken.isNone then
      (.err .MissingAuthentication, e)
    else if requestType = .authenticated ∧ e.accessExpiration.isNone then
      (.panicked, e)
    else if requestType = .authenticated ∧ e.accessExpiration.getD 0 < now then
      (.err .AccessTokenExpired, e)
    else if requestType = .authenticated ∧
        !validHeaderString ("Bearer " ++ e.accessToken.getD "") then
      (.err .InvalidUserAgentHeader, e)
    else if !methodOk then (.err .HttpMethodError, e)
    else
      match processErrorLimitHeaders now resp.remainHeader resp.resetHeader
          e.errorLimitState with
      | .error err => (.err err, e)
      | .ok newLimit =>
        let e1 := { e with errorLimitState := newLimit }
        if !statusIsSuccess resp.status then (.err (.InvalidStatusCode resp.status), e1)
        else
          match resp.body with
          | none => (.err .FailedJsonParse, e1)
          | some data => (.ok data, e1)

/-- Loop body of `Esi::get_endpoint_for_op_id` (src/client.rs:633): scan
the `paths` object entries in order; a non-object entry is a parse error;
on the first entry one of whose method objects carries the wanted
`operationId`, return the path with its first character stripped. -/
def scanPaths (opId : String) : List (String × Json) → Except EsiError String
  | [] => .error (.UnknownOperationID opId)
  | (pathStr, pathObj) :: rest =>
    match pathObj.asObj with
    | none => .error (.FailedSpecParse "Parsing a path")
    | some methods =>
      if methods.any (fun m => (m.2.index "operationId").asStr = some opId) then
        .ok (pathStr.drop 1)
      else scanPaths opId rest

/-- Model of `Esi::get_endpoint_for_op_id` (src/client.rs:622). -/
def getEndpointForOpId (spec : Option Json) (opId : String) : Except EsiError String :=
  match spec with
  | none => .error .EmptySpec
  | some data =>
    match (data.index "paths").asObj with
    | none => .error (.FailedSpecParse "Getting paths")
    | some paths => scanPaths opId paths

/-- String field of a claims object. -/
def getStr (j : Json) (k : String) : Option String := (j.index k).asStr

/-- Integer field of a claims object. -/
def getInt (j : Json) (k : String) : Option Int := (j.index k).asInt

/-- List-of-strings field of a claims object (serde `Vec<String>`: must be
an array whose every element is a string). -/
def getStrList (j : Json) (k : String) : Option (List String) :=
  match j.index k with
  | .arr xs => xs.mapM Json.asStr
  | _ => none

/-- Model of `serde_json::from_value::<TokenClaims>`: every field of
`TokenClaims` is required except `scp: Option<Value>`, which serde fills
with `None` when the field is missing or `null`. -/
def tokenClaimsOfJson (j : Json) : Option TokenClaims := do
  let aud ← getStrList j "aud"
  let azp ← getStr j "azp"
  let exp ← getInt j "exp"
  let iat ← getInt j "iat"
  let iss ← getStr j "iss"
  let jti ← getStr j "jti"
  let kid ← getStr j "kid"
  let name ← getStr j "name"
  let owner ← getStr j "owner"
  let region ← getStr j "region"
  let sub ← getStr j "sub"
  let tenant ← getStr j "tenant"
  let tier ← getStr j "tier"
  let scp := match j.index "scp" with
    | .null => none
    | v => some v
  some { aud, azp, exp, iat, iss, jti, kid, name, owner, region, scp, sub, tenant, tier }

/-- Members of the `aud` claim as the audience check sees them: a single
string or an array of strings. -/
def audMembers (claims : Json) : List String :=
  match claims.index "aud" with
  | .str s => [s]
  | .arr xs => xs.filterMap Json.asStr
  | _ => []

/-- Modelled from the spec: the claim checks performed by the external
`jsonwebtoken::decode` call in `validate` (src/jwt_util.rs:56), which is
library code not in this repository.  Per the configuration built in
`validate` and spec section 4.3: the signature is verified
cryptographically (abstracted as `sigOk`), the `sub` claim must be
present (`required_spec_claims`), the token must not be expired, and the
`aud` claim must contain the expected client id or the fixed audience
string "EVE Online" (`set_audience(&[client_id, "EVE Online"])`).  Any
failure is the wrapped-library `JwtValidationFailed` error. -/
def decodeChecks (claims : Json) (sigOk : Bool) (now : Int) (clientId : String) :
    Option EsiError :=
  if !sigOk then some .JwtValidationFailed
  else if (claims.index "sub").isNull then some .JwtValidationFailed
  else if (match (claims.index "exp").asInt with
           | some e => decide (e < now)
           | none => false) then
    some .JwtValidationFailed
  else if !((audMembers claims).contains clientId || (audMembers claims).contains "EVE Online") then
    some .JwtValidationFailed
  else none

/-- Model of `validate` (src/jwt_util.rs:46): run the library decode, then
the hand-written issuer check — `token.claims["iss"].as_str().unwrap()`
panics when the decoded claims carry no issuer string — and finally
deserialize the claim set. -/
def validate (claims : Json) (sigOk : Bool) (now : Int) (clientId : String) :
    Outcome TokenClaims :=
  match decodeChecks claims sigOk now clientId with
  | some err => .err err
  | none =>
    match (claims.index "iss").asStr with
    | none => .panicked
    | some iss =>
      if iss ≠ "login.eveonline.com" ∧ iss ≠ "https://login.eveonline.com" then
        .err (.InvalidJWT "JWT issuer is incorrect")
      else
        match tokenClaimsOfJson claims with
        | none => .err .FailedJsonParse
        | some tc => .ok tc

/-- Inner scan of `get_rs256_key` (src/jwt_util.rs:34): lazily find the
first key entry whose `alg` is RS256; `entry["alg"].as_str().unwrap()`
panics on an entry reached without an `alg` string. -/
def findRs256 : List Json → Outcome (Option Json)
  | [] => .ok none
  | entry :: rest =>
    match (entry.index "alg").asStr with
    | none => .panicked
    | some a => if a = "RS256" then .ok (some entry) else findRs256 rest

/-- Model of `get_keys_url` and `get_rs256_key` (src/jwt_util.rs:13 and
30) composed.  `authInfoStatus`/`authInfoBody` are the `.well-known`
metadata response (body `none` = JSON parse failure); `jwksBody` is the
parsed JWKS response (whose status the code never checks).  The selected
key is returned as its `Json` entry (the code serializes it back to a
string for the `jsonwebtoken` library; that round trip is dropped).
`data["keys"].as_array().unwrap()` panics when `keys` is not an array. -/
def getRs256Key (authInfoStatus : Nat) (authInfoBody : Option Json)
    (jwksBody : Option Json) : Outcome Json :=
  if authInfoStatus ≠ 200 then .err (.InvalidStatusCode authInfoStatus)
  else
    match authInfoBody with
    | none => .err .FailedJsonParse
    | some meta =>
      match (meta.index "jwks_uri").asStr with
      | none => .err (.InvalidJWT "Could not get keys URL")
      | some _url =>
        match jwksBody with
        | none => .err .FailedJsonParse
        | some data =>
          match (data.index "keys").asArr with
          | none => .panicked
          | some keys =>
            match findRs256 keys with
            | .panicked => .panicked
            | .err err => .err err
            | .ok none => .err (.InvalidJWT "Could not find an RS256 key")
            | .ok (some k) => .ok k

/-- Alphabet of base64url encoding. -/
def b64urlAlphabet : List Char :=
  "ABCDEFGHIJKLMNOPQRSTUVWXYZabcdefghijklmnopqrstuvwxyz0123456789-_".data

/-- Character for a 6-bit group. -/
def b64chr (n : Nat) : Char := b64urlAlphabet.getD n 'A'

/-- Index of a character in the base64url alphabet. -/
def b64inv (c : Char) : Nat := b64urlAlphabet.indexOf c

/-- Base64url encoding without padding, as performed by the
`URL_SAFE_NO_PAD` engine used in `src/pkce.rs`: each 3-byte group becomes
4 characters, a trailing 1- or 2-byte group becomes 2 or 3 characters. -/
def base64urlEncode : List Nat → List Char
  | [] => []
  | [a] => [b64chr (a / 4), b64chr (a % 4 * 16)]
  | [a, b] => [b64chr (a / 4), b64chr (a % 4 * 16 + b / 16), b64chr (b % 16 * 4)]
  | a :: b :: c :: rest =>
    b64chr (a / 4) :: b64chr (a % 4 * 16 + b / 16) ::
    b64chr (b % 16 * 4 + c / 64) :: b64chr (c % 64) :: base64urlEncode rest

/-- Left inverse of `base64urlEncode` on byte lists (used to show the
encoding is injective). -/
def base64urlDecode : List Char → List Nat
  | [] => []
  | [_] => []
  | [x, y] => [b64inv x * 4 + b64inv y / 16]
  | [x, y, z] => [b64inv x * 4 + b64inv y / 16, b64inv y % 16 * 16 + b64inv z / 4]
  | x :: y :: z :: w :: rest =>
    (b64inv x * 4 + b64inv y / 16) :: (b64inv y % 16 * 16 + b64inv z / 4) ::
    (b64inv z % 4 * 64 + b64inv w) :: base64urlDecode rest

/-- Model of `pkce::generate` (src/pkce.rs:16): draw 32 random bytes,
base64url-encode them into the verifier, hash the verifier string with
SHA-256 (the external `sha2` crate, abstracted as the `sha256` argument)
and base64url-encode the digest into the challenge.  `randomByte` models
the 32 independent `rand::random::<u8>()` draws. -/
def generate (sha256 : List Nat → List Nat) (randomByte : Nat → Nat) : Pkce :=
  let verifierBytes := (List.range 32).map randomByte
  let verifierB64 := String.mk (base64urlEncode verifierBytes)
  let challenge := String.mk (base64urlEncode (sha256 (verifierB64.data.map Char.toNat)))
  { challenge, verifier := verifierB64 }

/-!  Theorems settling the claims. -/

/-- C3: the pre-call error-limit check reports `Limited` exactly when
state is stored with `remaining_limit ≤ 0` and a not-yet-passed expiry, in
which case `for_millis` is the stored expiry minus the current time and is
nonnegative; in every other case it reports `NotLimited`, and
`assert_not_error_limited` allows the call exactly in the `NotLimited`
case.  The range hypotheses keep the `i64` subtraction away from
wrap-around (any realistic clock value and stored expiry satisfy them). -/
theorem c3_error_limit_check (now : Int) (st : Option ErrorLimitState)
    (hnow : 0 ≤ now ∧ now ≤ 2 ^ 62)
    (hst : ∀ s, st = some s → -(2 ^ 62) ≤ s.expiresAtMillis ∧ s.expiresAtMillis ≤ 2 ^ 62) :
    (∀ f, isErrorLimited now st = .limited f ↔
        ∃ s, st = some s ∧ s.remainingLimit ≤ 0 ∧ now ≤ s.expiresAtMillis ∧
          f = s.expiresAtMillis - now) ∧
    (∀ f, isErrorLimited now st = .limited f → 0 ≤ f) ∧
    (isErrorLimited now st = .notLimited ↔
        st = none ∨ ∃ s, st = some s ∧ (0 < s.remainingLimit ∨ s.expiresAtMillis < now)) ∧
    (assertNotErrorLimited now st = .ok () ↔ isErrorLimited now st = .notLimited) ∧
    (∀ f, assertNotErrorLimited now st = .error (.ErrorLimited f) ↔
        isErrorLimited now st = .limited f) := by
  have hassert : (assertNotErrorLimited now st = .ok () ↔
        isErrorLimited now st = .notLimited) ∧
      (∀ f, assertNotErrorLimited now st = .error (.ErrorLimited f) ↔
        isErrorLimited now st = .limited f) := by
    unfold assertNotErrorLimited
    cases h : isErrorLimited now st <;> simp
  cases st with
  | none =>
    refine ⟨?_, ?_, ?_, hassert.1, hassert.2⟩ <;> simp [isErrorLimited]
  | some s =>
    obtain ⟨h1, h2⟩ := hst s rfl
    have hw : wrap64 (s.expiresAtMillis - now) = s.expiresAtMillis - now :=
      wrap64_eq_self (by omega) (by omega)
    have hmain : isErrorLimited now (some s) =
        if s.remainingLimit > 0 then .notLimited
        else if s.expiresAtMillis - now < 0 then .notLimited
        else .limited (s.expiresAtMillis - now) := by
      simp only [isErrorLimited, hw]
    refine ⟨?_, ?_, ?_, hassert.1, hassert.2⟩
    · intro f
      rw [hmain]
      split_ifs with hg hlt <;> simp <;> omega
    · intro f hf
      rw [hmain] at hf
      split_ifs at hf with hg hlt
      simp only [ErrorLimitStatus.limited.injEq] at hf
      omega
    · rw [hmain]
      split_ifs with hg hlt <;> simp <;> omega

/-- Closed witness for C3 at a concrete limited state. -/
theorem c3_error_limit_check_witness :
    isErrorLimited 1000 (some ⟨0, 3000⟩) = .limited 2000 ∧
    assertNotErrorLimited 1000 (some ⟨0, 3000⟩) = .error (.ErrorLimited 2000) := by
  have h := c3_error_limit_check 1000 (some ⟨0, 3000⟩)
    (by constructor <;> decide)
    (by intro s hs; injection hs with h; subst h; constructor <;> decide)
  have hl : isErrorLimited 1000 (some ⟨0, 3000⟩) = .limited 2000 :=
    (h.1 2000).mpr ⟨⟨0, 3000⟩, rfl, by decide, by decide, by decide⟩
  exact ⟨hl, (h.2.2.2.2 2000).mpr hl⟩

/-- C1: in both token exchanges the token triple (access token, expiry,
refresh token) is replaced as a unit only after the whole call has
succeeded and is untouched on every error result; on success the expiry is
the clock reading plus `expires_in * 1000` milliseconds, and the refresh
token is the one in the response (`None` when the authorization-code
response carried `null`).  The bound hypotheses keep `expires_in * 1000 +
now` inside `i64`. -/
theorem c1_token_state_atomic
    (e : Esi) (pk : Option String) (respA : HttpResponse AuthenticateResponse)
    (jwt : Except EsiError TokenClaims)
    (tokArg : Option String) (respR : HttpResponse RefreshTokenAuthenticateResponse)
    (now : Int) (hnow : 0 ≤ now)
    (hA : ∀ d, respA.body = some d → (d.expiresIn : Int) * 1000 + now < 2 ^ 63)
    (hR : ∀ d, respR.body = some d → (d.expiresIn : Int) * 1000 + now < 2 ^ 63) :
    (∀ err st', authenticate e pk respA jwt now = (.err err, st') →
        tokenFields st' = tokenFields e) ∧
    (∀ c st', authenticate e pk respA jwt now = (.ok c, st') →
        ∃ d, respA.body = some d ∧
          st'.accessToken = some d.accessToken ∧
          st'.accessExpiration = some ((d.expiresIn : Int) * 1000 + now) ∧
          st'.refreshToken = d.refreshToken) ∧
    (∀ err st', refreshAccessToken e tokArg respR now = (.err err, st') →
        tokenFields st' = tokenFields e) ∧
    (∀ u st', refreshAccessToken e tokArg respR now = (.ok u, st') →
        ∃ d, respR.body = some d ∧
          st'.accessToken = some d.accessToken ∧
          st'.accessExpiration = some ((d.expiresIn : Int) * 1000 + now) ∧
          st'.refreshToken = some d.refreshToken) := by
  have hexpA : ∀ d : AuthenticateResponse, respA.body = some d →
      wrap64 (i64OfU64 d.expiresIn * 1000 + now) = (d.expiresIn : Int) * 1000 + now := by
    intro d hd
    have hb := hA d hd
    have hlt : d.expiresIn < 2 ^ 63 := by omega
    have hcast : i64OfU64 d.expiresIn = (d.expiresIn : Int) := by
      unfold i64OfU64
      rw [if_pos hlt]
    rw [hcast]
    exact wrap64_eq_self (by omega) (by omega)
  have hexpR : ∀ d : RefreshTokenAuthenticateResponse, respR.body = some d →
      wrap64 (i64OfU64 d.expiresIn * 1000 + now) = (d.expiresIn : Int) * 1000 + now := by
    intro d hd
    have hb := hR d hd
    have hlt : d.expiresIn < 2 ^ 63 := by omega
    have hcast : i64OfU64 d.expiresIn = (d.expiresIn : Int) := by
      unfold i64OfU64
      rw [if_pos hlt]
    rw [hcast]
    exact wrap64_eq_self (by omega) (by omega)
  refine ⟨?_, ?_, ?_, ?_⟩
  · intro err st' h
    unfold authenticate at h
    repeat' split at h
    all_goals simp only [Prod.mk.injEq, reduceCtorEq, false_and, and_false] at h
    all_goals
      first
      | exact h.elim
      | (obtain ⟨h1, h2⟩ := h
         subst h2
         simp [tokenFields])
  · intro c st' h
    unfold authenticate at h
    repeat' split at h
    all_goals simp only [Prod.mk.injEq, reduceCtorEq, false_and, and_false] at h
    all_goals
      first
      | exact h.elim
      | (obtain ⟨h1, h2⟩ := h
         subst h2
         exact ⟨_, by assumption, rfl, by rw [hexpA _ (by assumption)], rfl⟩)
  · intro err st' h
    unfold refreshAccessToken at h
    repeat' split at h
    all_goals simp only [Prod.mk.injEq, reduceCtorEq, false_and, and_false] at h
    all_goals
      first
      | exact h.elim
      | (obtain ⟨h1, h2⟩ := h
         subst h2
         simp [tokenFields])
  · intro u st' h
    unfold refreshAccessToken at h
    repeat' split at h
    all_goals simp only [Prod.mk.injEq, reduceCtorEq, false_and, and_false] at h
    all_goals
      first
      | exact h.elim
      | (obtain ⟨h1, h2⟩ := h
         subst h2
         exact ⟨_, by assumption, rfl, by rw [hexpR _ (by assumption)], rfl⟩)

/-- Concrete session used by the closed witnesses: confidential-client
configuration with no stored tokens. -/
def egEsi : Esi :=
  { version := "latest"
    clientId := some "cid"
    clientSecret := some "sec"
    callbackUrl := some "cb"
    baseApiUrl := "https://esi.evetech.net/"
    authorizeUrl := "https://login.eveonline.com/v2/oauth/authorize"
    tokenUrl := "https://login.eveonline.com/v2/oauth/token"
    specUrl := "https://esi.evetech.net/_latest/swagger.json"
    scope := ""
    applicationAuth := false
    accessToken := none
    accessExpiration := none
    refreshToken := none
    spec := none
    errorLimitState := none }

/-- Concrete decoded claim set used by the closed witnesses. -/
def egClaims : TokenClaims :=
  { aud := ["cid", "EVE Online"]
    azp := "cid"
    exp := 2000
    iat := 0
    iss := "login.eveonline.com"
    jti := "jti"
    kid := "JWT-Signature-Key"
    name := "Some Name"
    owner := "owner"
    region := "world"
    scp := none
    sub := "CHARACTER:EVE:123"
    tenant := "tranquility"
    tier := "live" }

/-- Closed witness for C1: a failed exchange (status 500) leaves the token
triple unchanged; successful exchanges store the response tokens with
expiry `now + expires_in * 1000`. -/
theorem c1_token_state_atomic_witness :
    tokenFields (authenticate egEsi none ⟨500, none, none, none⟩ (.ok egClaims) 5).2 =
      tokenFields egEsi ∧
    (authenticate egEsi none ⟨200, none, none, some ⟨"abc", 1000, some "def"⟩⟩
        (.ok egClaims) 5).2.accessExpiration = some 1000005 ∧
    (refreshAccessToken egEsi (some "rt") ⟨200, none, none, some ⟨"abc2", 700, "def2"⟩⟩
        5).2.refreshToken = some "def2" := by
  have h1 := c1_token_state_atomic egEsi none ⟨500, none, none, none⟩ (.ok egClaims)
    (some "rt") ⟨500, none, none, none⟩ 5 (by decide)
    (by intro d hd; injection hd)
    (by intro d hd; injection hd)
  have h2 := c1_token_state_atomic egEsi none ⟨200, none, none, some ⟨"abc", 1000, some "def"⟩⟩
    (.ok egClaims) (some "rt") ⟨200, none, none, some ⟨"abc2", 700, "def2"⟩⟩ 5 (by decide)
    (by intro d hd; injection hd with hd'; subst hd'; decide)
    (by intro d hd; injection hd with hd'; subst hd'; decide)
  refine ⟨h1.1 _ _ rfl, ?_, ?_⟩
  · obtain ⟨d, hd, _, h4, _⟩ := h2.2.1 _ _ rfl
    injection hd with hd'
    subst hd'
    exact h4.trans (by norm_num)
  · obtain ⟨d, hd, _, _, h5⟩ := h2.2.2.2 _ _ rfl
    injection hd with hd'
    subst hd'
    exact h5

/-- Both error-limit headers present with parseable in-range values:
the stored state is replaced wholesale. -/
theorem processErrorLimitHeaders_present (now r t : Int) (rs ts : String)
    (st : Option ErrorLimitState) (hr : parseI32 rs = some r) (ht : parseI64 ts = some t)
    (hlo : -(2 ^ 63) ≤ now + t * 1000) (hhi : now + t * 1000 < 2 ^ 63) :
    processErrorLimitHeaders now (some rs) (some ts) st = .ok (some ⟨r, now + t * 1000⟩) := by
  simp only [processErrorLimitHeaders, hr, ht]
  rw [wrap64_eq_self hlo hhi]

/-- Either error-limit header absent: the stored state is left untouched. -/
theorem processErrorLimitHeaders_absent (now : Int) (remainHeader resetHeader : Option String)
    (st : Option ErrorLimitState) (h : remainHeader = none ∨ resetHeader = none) :
    processErrorLimitHeaders now remainHeader resetHeader st = .ok st := by
  unfold processErrorLimitHeaders
  rcases h with rfl | rfl
  · cases resetHeader <;> rfl
  · cases remainHeader <;> rfl

/-- C2 (amended): on every received response, presence of both error-limit
headers (with integer values) replaces the shared error-limit state
wholesale with `{remaining, now + reset * 1000}` and absence of either
header leaves it untouched — for the spec fetch, the refresh-token
exchange and the generic query this holds regardless of the status code,
while the authorization-code exchange processes the headers only on a
status-200 response and leaves the state untouched on any other status. -/
theorem c2_error_limit_header_update
    {τ : Type} (e : Esi) (pk : Option String) (now r t : Int) (rs ts : String) (s : Nat)
    (specBody : Option Json) (authBody : Option AuthenticateResponse)
    (jwt : Except EsiError TokenClaims)
    (refreshBody : Option RefreshTokenAuthenticateResponse)
    (tokArg : Option String) (qBody : Option τ) (h1 h2 : Option String)
    (hnl : assertNotErrorLimited now e.errorLimitState = .ok ())
    (hr : parseI32 rs = some r) (ht : parseI64 ts = some t)
    (hlo : -(2 ^ 63) ≤ now + t * 1000) (hhi : now + t * 1000 < 2 ^ 63)
    (habs : h1 = none ∨ h2 = none)
    (htok : (tokArg.orElse fun _ => e.refreshToken).isSome)
    (hci : checkClientInfo e = .ok ())
    (hnpR : ¬(e.applicationAuth = true ∧ e.clientId.isNone = true))
    (hnpA : ¬(e.applicationAuth = true ∧ (e.clientId.isNone = true ∨ pk.isNone = true))) :
    ((updateSpec e ⟨s, some rs, some ts, specBody⟩ now).2.errorLimitState =
        some ⟨r, now + t * 1000⟩) ∧
    ((updateSpec e ⟨s, h1, h2, specBody⟩ now).2.errorLimitState = e.errorLimitState) ∧
    ((refreshAccessToken e tokArg ⟨s, some rs, some ts, refreshBody⟩ now).2.errorLimitState =
        some ⟨r, now + t * 1000⟩) ∧
    ((refreshAccessToken e tokArg ⟨s, h1, h2, refreshBody⟩ now).2.errorLimitState =
        e.errorLimitState) ∧
    ((query e .public true ⟨s, some rs, some ts, qBody⟩ now).2.errorLimitState =
        some ⟨r, now + t * 1000⟩) ∧
    ((query e .public true ⟨s, h1, h2, qBody⟩ now).2.errorLimitState = e.errorLimitState) ∧
    ((authenticate e pk ⟨200, some rs, some ts, authBody⟩ jwt now).2.errorLimitState =
        some ⟨r, now + t * 1000⟩) ∧
    (s ≠ 200 → (authenticate e pk ⟨s, some rs, some ts, authBody⟩ jwt now).2.errorLimitState =
        e.errorLimitState) ∧
    ((authenticate e pk ⟨200, h1, h2, authBody⟩ jwt now).2.errorLimitState =
        e.errorLimitState) := by
  have hp := processErrorLimitHeaders_present now r t rs ts e.errorLimitState hr ht hlo hhi
  have ha := processErrorLimitHeaders_absent now h1 h2 e.errorLimitState habs
  obtain ⟨tok, htok'⟩ := Option.isSome_iff_exists.mp htok
  refine ⟨?_, ?_, ?_, ?_, ?_, ?_, ?_, ?_, ?_⟩
  · simp only [updateSpec, hnl, hp]
    split
    · rfl
    · split <;> rfl
  · simp only [updateSpec, hnl, ha]
    split
    · rfl
    · split <;> rfl
  · simp only [refreshAccessToken, hnl, htok', getAuthHeaders, hci, hp]
    rw [if_neg hnpR]
    split
    · rfl
    · split <;> rfl
  · simp only [refreshAccessToken, hnl, htok', getAuthHeaders, hci, ha]
    rw [if_neg hnpR]
    split
    · rfl
    · split <;> rfl
  · simp only [query, hnl, hp]
    simp only [reduceCtorEq, false_and, if_false, Bool.not_true, Bool.false_eq_true]
    split
    · rfl
    · split <;> rfl
  · simp only [query, hnl, ha]
    simp only [reduceCtorEq, false_and, if_false, Bool.not_true, Bool.false_eq_true]
    split
    · rfl
    · split <;> rfl
  · simp only [authenticate, hnl, getAuthHeaders, hci, hp]
    rw [if_neg hnpA, if_neg (by omega : ¬(200 : Nat) ≠ 200)]
    split
    · rfl
    · split <;> rfl
  · intro hs
    simp only [authenticate, hnl, getAuthHeaders, hci]
    rw [if_neg hnpA, if_pos hs]
  · simp only [authenticate, hnl, getAuthHeaders, hci, ha]
    rw [if_neg hnpA, if_neg (by omega : ¬(200 : Nat) ≠ 200)]
    split
    · rfl
    · split <;> rfl

/-- C2 counterexample: a non-200 token-exchange response carrying both
error-limit headers does NOT replace the stored error-limit state — the
status check in `Esi::authenticate` precedes the header processing, so the
state is left untouched, contradicting the claim that the state is
replaced regardless of the status code. -/
theorem c2_error_limit_header_update_cex :
    (authenticate egEsi none ⟨500, some "0", some "60", none⟩ (.ok egClaims) 1000).1 =
      .err (.InvalidStatusCode 500) ∧
    (authenticate egEsi none ⟨500, some "0", some "60", none⟩
        (.ok egClaims) 1000).2.errorLimitState = none :=
  ⟨rfl, rfl⟩

/-- Closed witness for C2: a 503 spec-fetch response with both headers
stores `{42, 61000}`; a 503 refresh response missing the remain header
leaves the (empty) state untouched. -/
theorem c2_error_limit_header_update_witness :
    (updateSpec egEsi ⟨503, some "42", some "60", none⟩ 1000).2.errorLimitState =
      some ⟨42, 61000⟩ ∧
    (refreshAccessToken egEsi (some "rt") ⟨503, none, some "60", none⟩
        1000).2.errorLimitState = none := by
  have h := c2_error_limit_header_update (τ := Unit) egEsi none 1000 42 60 "42" "60" 503
    none none (.ok egClaims) none (some "rt") none none (some "60")
    rfl rfl rfl (by decide) (by decide) (Or.inl rfl) rfl rfl (by decide) (by decide)
  exact ⟨h.1, h.2.2.2.1⟩

/-- Concrete application-auth (PKCE) session used by the panic evidence. -/
def egEsiApp : Esi := { egEsi with clientSecret := none, applicationAuth := true }

/-- Well-known metadata document with a `jwks_uri` field. -/
def egJwksMeta : Json := .obj [("jwks_uri", .str "https://login.eveonline.com/oauth/jwks")]

/-- JWKS document whose single key entry lacks an `alg` field. -/
def egJwksNoAlg : Json := .obj [("keys", .arr [.obj [("kty", .str "RSA")]])]

/-- Decoded claim set lacking an `iss` entry (with `sub` and `aud` fine). -/
def egClaimsNoIss : Json :=
  .obj [("sub", .str "CHARACTER:EVE:123"), ("aud", .arr [.str "cid"])]

/-- C4 evidence (code bug): the core does panic instead of returning a
typed error on the inputs the claim enumerates — `authenticate` in
application-auth mode with `pkce_verifier = None`
(`pkce_verifier.as_ref().unwrap()`), an RS256-key lookup on a JWKS entry
without an `alg` string (`entry["alg"].as_str().unwrap()`), JWT validation
of decoded claims without an issuer string
(`token.claims["iss"].as_str().unwrap()`), and additionally an
authenticated query with a stored token but no stored expiration
(`self.access_expiration.unwrap()`). -/
theorem c4_no_panic_evidence :
    (authenticate egEsiApp none ⟨200, none, none, some ⟨"abc", 1000, none⟩⟩
        (.ok egClaims) 5).1 = .panicked ∧
    getRs256Key 200 (some egJwksMeta) (some egJwksNoAlg) = .panicked ∧
    validate egClaimsNoIss true 0 "cid" = .panicked ∧
    (query { egEsi with accessToken := some "at" } .authenticated true
        (⟨200, none, none, some ()⟩ : HttpResponse Unit) 5).1 = .panicked :=
  ⟨rfl, rfl, rfl, rfl⟩

/-- TokenState invariant of the spec: a stored access token implies a
stored expiration. -/
def tokenInvariant (e : Esi) : Prop :=
  e.accessToken.isSome = true → e.accessExpiration.isSome = true

/-- Transfer of the invariant along equal token fields. -/
theorem tokenInvariant_of_fields (e e' : Esi) (hT : e'.accessToken = e.accessToken)
    (hE : e'.accessExpiration = e.accessExpiration) (hb : tokenInvariant e) :
    tokenInvariant e' := by
  simp only [tokenInvariant, hT, hE]
  exact hb

/-- C5 (amended): the invariant is established unconditionally by every
successful `authenticate`/`refresh_access_token`, is preserved by every
operation, and holds for builder-constructed sessions exactly when the
builder-seeded token fields themselves satisfy it — the builder does not
enforce it. -/
theorem c5_token_invariant :
    (∀ b e, fromBuilder b = .ok e →
        (b.accessToken.isSome = true → b.accessExpiration.isSome = true) →
        tokenInvariant e) ∧
    (∀ e pk (resp : HttpResponse AuthenticateResponse) jwt now r e',
        authenticate e pk resp jwt now = (r, e') → tokenInvariant e → tokenInvariant e') ∧
    (∀ e pk (resp : HttpResponse AuthenticateResponse) jwt now c e',
        authenticate e pk resp jwt now = (.ok c, e') → tokenInvariant e') ∧
    (∀ e tokArg (resp : HttpResponse RefreshTokenAuthenticateResponse) now r e',
        refreshAccessToken e tokArg resp now = (r, e') → tokenInvariant e → tokenInvariant e') ∧
    (∀ e tokArg (resp : HttpResponse RefreshTokenAuthenticateResponse) now u e',
        refreshAccessToken e tokArg resp now = (.ok u, e') → tokenInvariant e') ∧
    (∀ e (resp : HttpResponse Json) now, tokenInvariant e →
        tokenInvariant (updateSpec e resp now).2) ∧
    (∀ (τ : Type) (e : Esi) rt mok (resp : HttpResponse τ) now, tokenInvariant e →
        tokenInvariant (query e rt mok resp now).2) := by
  refine ⟨?_, ?_, ?_, ?_, ?_, ?_, ?_⟩
  · intro b e h hseed
    unfold fromBuilder at h
    split at h
    · exact absurd h (by simp)
    · simp only [Except.ok.injEq] at h
      subst h
      exact hseed
  · intro e pk resp jwt now r e' h hb
    unfold authenticate at h
    repeat' split at h
    all_goals simp only [Prod.mk.injEq] at h
    all_goals obtain ⟨h1, h2⟩ := h
    all_goals subst h2
    all_goals simp only [tokenInvariant] at hb ⊢
    all_goals first | exact hb | exact fun _ => rfl
  · intro e pk resp jwt now c e' h
    unfold authenticate at h
    repeat' split at h
    all_goals simp only [Prod.mk.injEq, reduceCtorEq, false_and, and_false] at h
    all_goals first
      | exact h.elim
      | (obtain ⟨h1, h2⟩ := h
         subst h2
         exact fun _ => rfl)
  · intro e tokArg resp now r e' h hb
    unfold refreshAccessToken at h
    repeat' split at h
    all_goals simp only [Prod.mk.injEq] at h
    all_goals obtain ⟨h1, h2⟩ := h
    all_goals subst h2
    all_goals simp only [tokenInvariant] at hb ⊢
    all_goals first | exact hb | exact fun _ => rfl
  · intro e tokArg resp now u e' h
    unfold refreshAccessToken at h
    repeat' split at h
    all_goals simp only [Prod.mk.injEq, reduceCtorEq, false_and, and_false] at h
    all_goals first
      | exact h.elim
      | (obtain ⟨h1, h2⟩ := h
         subst h2
         exact fun _ => rfl)
  · intro e resp now hb
    refine tokenInvariant_of_fields e _ ?_ ?_ hb <;>
    · unfold updateSpec
      split
      · rfl
      · split
        · rfl
        · split
          · rfl
          · split <;> rfl
  · intro τ e rt mok resp now hb
    refine tokenInvariant_of_fields e _ ?_ ?_ hb <;>
    · unfold query
      split
      · rfl
      · split
        · rfl
        · split
          · rfl
          · split
            · rfl
            · split
              · rfl
              · split
                · rfl
                · split
                  · rfl
                  · split
                    · rfl
                    · split <;> rfl

/-- Builder seeded with an access token but no expiration. -/
def c5Builder : EsiBuilder := { userAgent := some "ua", accessToken := some "tok" }

/-- The session the builder above constructs. -/
def c5BuiltEsi : Esi :=
  { version := "latest"
    clientId := none
    clientSecret := none
    callbackUrl := none
    baseApiUrl := "https://esi.evetech.net/"
    authorizeUrl := "https://login.eveonline.com/v2/oauth/authorize"
    tokenUrl := "https://login.eveonline.com/v2/oauth/token"
    specUrl := "https://esi.evetech.net/_latest/swagger.json"
    scope := ""
    applicationAuth := false
    accessToken := some "tok"
    accessExpiration := none
    refreshToken := none
    spec := none
    errorLimitState := none }

/-- C5 counterexample: construction from the builder does NOT enforce the
invariant — seeding `access_token` without `access_expiration` yields a
reachable state with a stored token and no stored expiration. -/
theorem c5_token_invariant_cex :
    fromBuilder c5Builder = .ok c5BuiltEsi ∧
    c5BuiltEsi.accessToken.isSome = true ∧
    c5BuiltEsi.accessExpiration = none :=
  ⟨rfl, rfl, rfl⟩

/-- Builder with no seeded token fields, for the C5 witness. -/
def egBuilder : EsiBuilder :=
  { userAgent := some "ua"
    clientId := some "cid"
    clientSecret := some "sec"
    callbackUrl := some "cb" }

/-- The session `egBuilder` constructs. -/
def egBuiltEsi : Esi :=
  { version := "latest"
    clientId := some "cid"
    clientSecret := some "sec"
    callbackUrl := some "cb"
    baseApiUrl := "https://esi.evetech.net/"
    authorizeUrl := "https://login.eveonline.com/v2/oauth/authorize"
    tokenUrl := "https://login.eveonline.com/v2/oauth/token"
    specUrl := "https://esi.evetech.net/_latest/swagger.json"
    scope := ""
    applicationAuth := false
    accessToken := none
    accessExpiration := none
    refreshToken := none
    spec := none
    errorLimitState := none }

/-- Closed witness for C5: a builder whose seeded fields satisfy the
invariant yields an invariant-satisfying session, and a successful
authentication establishes the invariant. -/
theorem c5_token_invariant_witness :
    tokenInvariant egBuiltEsi ∧
    tokenInvariant (authenticate egEsi none
      ⟨200, none, none, some ⟨"abc", 1000, some "def"⟩⟩ (.ok egClaims) 5).2 := by
  have h := c5_token_invariant
  constructor
  · exact h.1 egBuilder egBuiltEsi rfl (by intro hx; exact absurd hx (by decide))
  · exact h.2.2.1 egEsi none ⟨200, none, none, some ⟨"abc", 1000, some "def"⟩⟩
      (.ok egClaims) 5 (some egClaims) _ rfl

/-- Whether one path entry (an object of methods) contains the wanted
operation id. -/
def specMethodsMatch (methods : List (String × Json)) (opId : String) : Bool :=
  methods.any (fun m => (m.2.index "operationId").asStr = some opId)

/-- Modelled from the spec: the first path/method pair whose operation
identifier equals the argument (spec section 4.2), expressed directly as a
scan for the first matching path.  Used as the reference function that
`get_endpoint_for_op_id` is compared against on well-formed documents. -/
def specFirstMatch (opId : String) : List (String × Json) → Option String
  | [] => none
  | (p, o) :: rest =>
    match o.asObj with
    | some ms => if specMethodsMatch ms opId then some p else specFirstMatch opId rest
    | none => specFirstMatch opId rest

/-- On a well-formed paths list, the scan returns the first match (first
character stripped) or the unknown-operation error. -/
theorem scanPaths_wellFormed (opId : String) (l : List (String × Json))
    (hw : ∀ kv ∈ l, kv.2.asObj.isSome = true) :
    scanPaths opId l =
      (match specFirstMatch opId l with
       | some p => .ok (p.drop 1)
       | none => .error (.UnknownOperationID opId)) := by
  induction l with
  | nil => rfl
  | cons kv rest ih =>
    obtain ⟨p, o⟩ := kv
    obtain ⟨ms, hms⟩ := Option.isSome_iff_exists.mp (hw (p, o) (by simp))
    simp only [scanPaths, specFirstMatch, specMethodsMatch, hms]
    by_cases hmatch :
        (ms.any fun m => (m.2.index "operationId").asStr = some opId) = true
    · rw [if_pos hmatch, if_pos hmatch]
    · rw [if_neg hmatch, if_neg hmatch]
      exact ih fun kv hkv => hw kv (by simp [hkv])

/-- A non-object path entry reached before any match is the malformed-spec
error. -/
theorem scanPaths_malformed (opId : String) (l₁ : List (String × Json)) (p : String)
    (v : Json) (l₂ : List (String × Json)) (hv : v.asObj = none)
    (h₁ : ∀ kv ∈ l₁, ∃ ms, kv.2.asObj = some ms ∧ specMethodsMatch ms opId = false) :
    scanPaths opId (l₁ ++ (p, v) :: l₂) = .error (.FailedSpecParse "Parsing a path") := by
  induction l₁ with
  | nil => simp [scanPaths, hv]
  | cons kv rest ih =>
    obtain ⟨q, w⟩ := kv
    obtain ⟨ms, hms, hnm⟩ := h₁ (q, w) (by simp)
    simp only [List.cons_append, scanPaths, hms, specMethodsMatch] at *
    rw [if_neg (by simp [hnm])]
    exact ih fun kv hkv => h₁ kv (by simp [hkv])

/-- C6 (amended): with no spec loaded the lookup fails with the
empty-spec error; a `paths` field that is not an object is the
malformed-specification error; on a well-formed document the result is
the first matching path with its leading character stripped, or the
unknown-operation error (never a parse error); and a non-object path
entry produces the malformed-specification error exactly when it is
scanned before any matching entry. -/
theorem c6_spec_resolution (opId : String) :
    (getEndpointForOpId none opId = .error .EmptySpec) ∧
    (∀ d, (Json.index d "paths").asObj = none →
        getEndpointForOpId (some d) opId = .error (.FailedSpecParse "Getting paths")) ∧
    (∀ d l, (Json.index d "paths").asObj = some l →
        (∀ kv ∈ l, kv.2.asObj.isSome = true) →
        getEndpointForOpId (some d) opId =
          (match specFirstMatch opId l with
           | some p => .ok (p.drop 1)
           | none => .error (.UnknownOperationID opId))) ∧
    (∀ d l₁ p v l₂, (Json.index d "paths").asObj = some (l₁ ++ (p, v) :: l₂) →
        v.asObj = none →
        (∀ kv ∈ l₁, ∃ ms, kv.2.asObj = some ms ∧ specMethodsMatch ms opId = false) →
        getEndpointForOpId (some d) opId = .error (.FailedSpecParse "Parsing a path")) := by
  refine ⟨rfl, ?_, ?_, ?_⟩
  · intro d hd
    simp only [getEndpointForOpId, hd]
  · intro d l hd hw
    simp only [getEndpointForOpId, hd]
    exact scanPaths_wellFormed opId l hw
  · intro d l₁ p v l₂ hd hv h₁
    simp only [getEndpointForOpId, hd]
    exact scanPaths_malformed opId l₁ p v l₂ hv h₁

/-- One well-formed path entry, used by the C6 counterexample. -/
def c6PathA : Json := .obj [("get", .obj [("operationId", .str "op")])]

/-- Document with a matching entry ordered before a malformed (non-object)
path entry. -/
def c6Spec : Json := .obj [("paths", .obj [("/a", c6PathA), ("/z", .num 5)])]

/-- C6 counterexample: on a document whose shape is wrong (the path entry
under "/z" is the number 5, not an object), the lookup nevertheless
succeeds with "a", because the matching entry "/a" is scanned first —
contradicting the claim that a wrongly-shaped document fails with the
malformed-specification error. -/
theorem c6_spec_resolution_cex :
    getEndpointForOpId (some c6Spec) "op" = .ok "a" ∧
    (Json.index c6Spec "paths").asObj = some [("/a", c6PathA), ("/z", .num 5)] ∧
    (Json.num 5).asObj = none :=
  ⟨rfl, rfl, rfl⟩

/-- Well-formed single-entry document of the specification text. -/
def c6WellSpec : Json :=
  .obj [("paths", .obj [("/a/{id}", .obj [("get", .obj [("operationId", .str "op_x")])])])]

/-- Closed witness for C6: on the well-formed document, the known
operation resolves to the template with the leading separator stripped,
and an unknown operation is the unknown-operation error. -/
theorem c6_spec_resolution_witness :
    getEndpointForOpId (some c6WellSpec) "op_x" = .ok "a/{id}" ∧
    getEndpointForOpId (some c6WellSpec) "missing_op" =
      .error (.UnknownOperationID "missing_op") := by
  constructor
  · exact ((c6_spec_resolution "op_x").2.2.1 c6WellSpec _ rfl (by decide)).trans rfl
  · exact ((c6_spec_resolution "missing_op").2.2.1 c6WellSpec _ rfl (by decide)).trans rfl

/-- The base64url alphabet inverts its own encoding table on 6-bit values. -/
theorem b64inv_b64chr : ∀ n, n < 64 → b64inv (b64chr n) = n := by decide

/-- Decoding is a left inverse of the padding-free base64url encoding on
byte lists. -/
theorem base64url_decode_encode : ∀ l : List Nat, (∀ b ∈ l, b < 256) →
    base64urlDecode (base64urlEncode l) = l := by
  intro l
  induction l using base64urlEncode.induct with
  | case1 => intro _; rfl
  | case2 a =>
    intro h
    have ha : a < 256 := h a (by simp)
    simp only [base64urlEncode, base64urlDecode]
    rw [b64inv_b64chr _ (by omega), b64inv_b64chr _ (by omega)]
    have : a / 4 * 4 + a % 4 * 16 / 16 = a := by omega
    rw [this]
  | case3 a b =>
    intro h
    have ha : a < 256 := h a (by simp)
    have hb : b < 256 := h b (by simp)
    simp only [base64urlEncode, base64urlDecode]
    rw [b64inv_b64chr _ (by omega), b64inv_b64chr _ (by omega), b64inv_b64chr _ (by omega)]
    have e1 : a / 4 * 4 + (a % 4 * 16 + b / 16) / 16 = a := by omega
    have e2 : (a % 4 * 16 + b / 16) % 16 * 16 + b % 16 * 4 / 4 = b := by omega
    rw [e1, e2]
  | case4 a b c rest ih =>
    intro h
    have ha : a < 256 := h a (by simp)
    have hb : b < 256 := h b (by simp)
    have hc : c < 256 := h c (by simp)
    simp only [base64urlEncode, base64urlDecode]
    rw [b64inv_b64chr _ (by omega), b64inv_b64chr _ (by omega),
      b64inv_b64chr _ (by omega), b64inv_b64chr _ (by omega)]
    have e1 : a / 4 * 4 + (a % 4 * 16 + b / 16) / 16 = a := by omega
    have e2 : (a % 4 * 16 + b / 16) % 16 * 16 + (b % 16 * 4 + c / 64) / 4 = b := by omega
    have e3 : (b % 16 * 4 + c / 64) % 4 * 64 + c % 64 = c := by omega
    rw [e1, e2, e3, ih (fun x hx => h x (by simp [hx]))]

/-- The padding-free base64url encoding is injective on byte lists. -/
theorem base64urlEncode_inj (l1 l2 : List Nat) (h1 : ∀ b ∈ l1, b < 256)
    (h2 : ∀ b ∈ l2, b < 256) (he : base64urlEncode l1 = base64urlEncode l2) :
    l1 = l2 := by
  have hd := congrArg base64urlDecode he
  rwa [base64url_decode_encode l1 h1, base64url_decode_encode l2 h2] at hd

/-- C7: the PKCE verifier is the padding-free base64url encoding of the 32
freshly drawn random bytes (so at least 32 bytes of entropy), the
challenge is the padding-free base64url encoding of the SHA-256 digest of
the encoded verifier string bytes, and distinct random draws always give
distinct verifiers (the encoding is injective), so two runs collide only
when all 32 random bytes coincide. -/
theorem c7_pkce_generate (sha256 : List Nat → List Nat) (f g : Nat → Nat)
    (hf : ∀ i, f i < 256) (hg : ∀ i, g i < 256) :
    (generate sha256 f).verifier = String.mk (base64urlEncode ((List.range 32).map f)) ∧
    ((List.range 32).map f).length = 32 ∧
    (generate sha256 f).challenge =
      String.mk (base64urlEncode (sha256 ((generate sha256 f).verifier.data.map Char.toNat))) ∧
    ((List.range 32).map f ≠ (List.range 32).map g →
      (generate sha256 f).verifier ≠ (generate sha256 g).verifier) := by
  refine ⟨rfl, by simp, rfl, ?_⟩
  intro hne hv
  refine hne (base64urlEncode_inj _ _ ?_ ?_ (congrArg String.data hv))
  · intro b hb
    obtain ⟨i, _, rfl⟩ := List.mem_map.mp hb
    exact hf i
  · intro b hb
    obtain ⟨i, _, rfl⟩ := List.mem_map.mp hb
    exact hg i

/-- Closed witness for C7 at two concrete distinct random draws. -/
theorem c7_pkce_generate_witness :
    (generate (fun b => b) (fun i => i % 256)).verifier ≠
      (generate (fun b => b) (fun i => (i + 1) % 256)).verifier ∧
    (generate (fun b => b) (fun i => i % 256)).challenge =
      String.mk (base64urlEncode
        ((generate (fun b => b) (fun i => i % 256)).verifier.data.map Char.toNat)) := by
  have h := c7_pkce_generate (fun b => b) (fun i => i % 256) (fun i => (i + 1) % 256)
    (fun i => Nat.mod_lt _ (by norm_num)) (fun i => Nat.mod_lt _ (by norm_num))
  exact ⟨h.2.2.2 (by decide), h.2.2.1⟩

/-- Whether an `Except` result is a success. -/
def exceptIsOk {ε α : Type} : Except ε α → Bool
  | .ok _ => true
  | .error _ => false

/-- C8: the authorize-URL construction fails with a configuration error
naming the absent field when `client_id` or `callback_url` is unset,
fails with the flow-information configuration error exactly when the
secret/PKCE invariant is violated, and succeeds precisely when
`client_id` and `callback_url` are set and exactly one of
client-secret/application-auth is selected. -/
theorem c8_authorize_url_config (e : Esi) (state : String) (pk : Pkce) :
    (e.clientId = none → getAuthorizeUrl e state pk = .error (.EmptyClientValue "client_id")) ∧
    (e.clientId.isSome = true → e.callbackUrl = none →
        getAuthorizeUrl e state pk = .error (.EmptyClientValue "callback_url")) ∧
    (e.clientId.isSome = true → e.callbackUrl.isSome = true →
        ¬(e.clientSecret.isSome = true ↔ e.applicationAuth = false) →
        getAuthorizeUrl e state pk = .error .MissingAuthenticationFlowInformation) ∧
    ((∃ a, getAuthorizeUrl e state pk = .ok a) ↔
        e.clientId.isSome = true ∧ e.callbackUrl.isSome = true ∧
          (e.clientSecret.isSome = true ↔ e.applicationAuth = false)) := by
  rcases hc : e.clientId with _ | cid <;> rcases hcb : e.callbackUrl with _ | cb <;>
    rcases hs : e.clientSecret with _ | sec <;> rcases hb : e.applicationAuth <;>
    simp [getAuthorizeUrl, checkClientInfo, hc, hcb, hs, hb]

/-- Closed witness for C8: a fully configured confidential client
succeeds; removing `client_id` fails naming "client_id". -/
theorem c8_authorize_url_config_witness :
    exceptIsOk (getAuthorizeUrl egEsi "st" ⟨"ch", "ver"⟩) = true ∧
    getAuthorizeUrl { egEsi with clientId := none } "st" ⟨"ch", "ver"⟩ =
      .error (.EmptyClientValue "client_id") := by
  constructor
  · obtain ⟨a, ha⟩ := (c8_authorize_url_config egEsi "st" ⟨"ch", "ver"⟩).2.2.2.mpr
      ⟨rfl, rfl, by simp [egEsi]⟩
    rw [ha]
    rfl
  · exact (c8_authorize_url_config { egEsi with clientId := none } "st" ⟨"ch", "ver"⟩).1 rfl

/-- C9: an authenticated query with no stored access token fails with the
missing-authentication error, and one with a stored token whose stored
expiration has passed fails with the expired-token error — in both cases
for every possible response and method argument, with the session
unchanged, i.e. before any HTTP request is built or sent. -/
theorem c9_query_auth_checks {τ : Type} (e : Esi) (mok : Bool) (resp : HttpResponse τ)
    (now : Int) (hnl : assertNotErrorLimited now e.errorLimitState = .ok ()) :
    (e.accessToken = none →
        query e .authenticated mok resp now = (.err .MissingAuthentication, e)) ∧
    (∀ tok ex, e.accessToken = some tok → e.accessExpiration = some ex → ex < now →
        query e .authenticated mok resp now = (.err .AccessTokenExpired, e)) := by
  constructor
  · intro h
    simp [query, hnl, h]
  · intro tok ex h1 h2 h3
    simp [query, hnl, h1, h2, h3]

/-- Closed witness for C9 at concrete sessions and a concrete response. -/
theorem c9_query_auth_checks_witness :
    query egEsi .authenticated true (⟨200, none, none, some ()⟩ : HttpResponse Unit) 5 =
      (.err .MissingAuthentication, egEsi) ∧
    query { egEsi with accessToken := some "at", accessExpiration := some 3 } .authenticated
        true (⟨200, none, none, some ()⟩ : HttpResponse Unit) 5 =
      (.err .AccessTokenExpired,
        { egEsi with accessToken := some "at", accessExpiration := some 3 }) := by
  refine ⟨(c9_query_auth_checks egEsi true _ 5 rfl).1 rfl, ?_⟩
  exact (c9_query_auth_checks { egEsi with accessToken := some "at", accessExpiration := some 3 }
    true _ 5 rfl).2 "at" 3 rfl rfl (by norm_num)

/-- Replace (or insert) the binding of one key in an object association
list. -/
def setKeyList : List (String × Json) → String → Json → List (String × Json)
  | [], k, v => [(k, v)]
  | (k', v') :: rest, k, v =>
    if k' = k then (k, v) :: rest else (k', v') :: setKeyList rest k v

/-- Replace (or insert) the binding of one key of a claims object. -/
def setKey (j : Json) (k : String) (v : Json) : Json :=
  match j with
  | .obj kvs => .obj (setKeyList kvs k v)
  | _ => .obj [(k, v)]

theorem lookupKey_setKeyList_self (kvs : List (String × Json)) (k : String) (v : Json) :
    lookupKey (setKeyList kvs k v) k = some v := by
  induction kvs with
  | nil => simp [setKeyList, lookupKey]
  | cons kv rest ih =>
    obtain ⟨k', v'⟩ := kv
    by_cases h : k' = k
    · simp [setKeyList, h, lookupKey]
    · simp [setKeyList, h, lookupKey, ih]

theorem lookupKey_setKeyList_ne (kvs : List (String × Json)) (k : String) (v : Json)
    (k' : String) (h : k' ≠ k) :
    lookupKey (setKeyList kvs k v) k' = lookupKey kvs k' := by
  induction kvs with
  | nil =>
    simp only [setKeyList, lookupKey]
    rw [if_neg (Ne.symm h)]
  | cons kv rest ih =>
    obtain ⟨a, b⟩ := kv
    simp only [setKeyList]
    by_cases ha : a = k
    · subst ha
      rw [if_pos rfl]
      simp only [lookupKey]
      rw [if_neg (Ne.symm h), if_neg (Ne.symm h)]
    · rw [if_neg ha]
      simp only [lookupKey]
      by_cases ha' : a = k'
      · rw [if_pos ha', if_pos ha']
      · rw [if_neg ha', if_neg ha']
        exact ih

theorem index_setKey_self (j : Json) (k : String) (v : Json) :
    (setKey j k v).index k = v := by
  cases j <;> simp [setKey, Json.index, lookupKey_setKeyList_self, lookupKey]

theorem singleton_lookup_ne (k : String) (v : Json) (k' : String) (h : k' ≠ k) :
    lookupKey [(k, v)] k' = none := by
  simp only [lookupKey]
  rw [if_neg (Ne.symm h)]

theorem index_setKey_ne (j : Json) (k : String) (v : Json) (k' : String) (h : k' ≠ k) :
    (setKey j k v).index k' = j.index k' := by
  cases j with
  | obj kvs =>
    simp only [setKey, Json.index]
    rw [lookupKey_setKeyList_ne kvs k v k' h]
  | null => simp [setKey, Json.index, singleton_lookup_ne k v k' h]
  | bool b => simp [setKey, Json.index, singleton_lookup_ne k v k' h]
  | num n => simp [setKey, Json.index, singleton_lookup_ne k v k' h]
  | str s => simp [setKey, Json.index, singleton_lookup_ne k v k' h]
  | arr xs => simp [setKey, Json.index, singleton_lookup_ne k v k' h]

theorem decodeChecks_setKey_iss (c v v' : Json) (sig : Bool) (now : Int) (cid : String) :
    decodeChecks (setKey c "iss" v) sig now cid =
    decodeChecks (setKey c "iss" v') sig now cid := by
  unfold decodeChecks audMembers
  rw [index_setKey_ne c "iss" v "sub" (by decide), index_setKey_ne c "iss" v' "sub" (by decide),
    index_setKey_ne c "iss" v "exp" (by decide), index_setKey_ne c "iss" v' "exp" (by decide),
    index_setKey_ne c "iss" v "aud" (by decide), index_setKey_ne c "iss" v' "aud" (by decide)]

theorem optionBind_some {α β : Type} (a : α) (f : α → Option β) :
    (some a >>= f) = f a := rfl

theorem isSome_bind_congr {α β : Type} (o : Option α) (f g : α → Option β)
    (h : ∀ a, (f a).isSome = (g a).isSome) : (o >>= f).isSome = (o >>= g).isSome := by
  cases o with
  | none => rfl
  | some a => exact h a

theorem tokenClaimsOfJson_setIss_isSome (c : Json) (s s' : String) :
    (tokenClaimsOfJson (setKey c "iss" (.str s))).isSome =
    (tokenClaimsOfJson (setKey c "iss" (.str s'))).isSome := by
  unfold tokenClaimsOfJson getStr getInt getStrList
  rw [index_setKey_ne c "iss" (.str s) "aud" (by decide),
    index_setKey_ne c "iss" (.str s') "aud" (by decide),
    index_setKey_ne c "iss" (.str s) "azp" (by decide),
    index_setKey_ne c "iss" (.str s') "azp" (by decide),
    index_setKey_ne c "iss" (.str s) "exp" (by decide),
    index_setKey_ne c "iss" (.str s') "exp" (by decide),
    index_setKey_ne c "iss" (.str s) "iat" (by decide),
    index_setKey_ne c "iss" (.str s') "iat" (by decide),
    index_setKey_self c "iss" (.str s), index_setKey_self c "iss" (.str s'),
    index_setKey_ne c "iss" (.str s) "jti" (by decide),
    index_setKey_ne c "iss" (.str s') "jti" (by decide),
    index_setKey_ne c "iss" (.str s) "kid" (by decide),
    index_setKey_ne c "iss" (.str s') "kid" (by decide),
    index_setKey_ne c "iss" (.str s) "name" (by decide),
    index_setKey_ne c "iss" (.str s') "name" (by decide),
    index_setKey_ne c "iss" (.str s) "owner" (by decide),
    index_setKey_ne c "iss" (.str s') "owner" (by decide),
    index_setKey_ne c "iss" (.str s) "region" (by decide),
    index_setKey_ne c "iss" (.str s') "region" (by decide),
    index_setKey_ne c "iss" (.str s) "sub" (by decide),
    index_setKey_ne c "iss" (.str s') "sub" (by decide),
    index_setKey_ne c "iss" (.str s) "tenant" (by decide),
    index_setKey_ne c "iss" (.str s') "tenant" (by decide),
    index_setKey_ne c "iss" (.str s) "tier" (by decide),
    index_setKey_ne c "iss" (.str s') "tier" (by decide),
    index_setKey_ne c "iss" (.str s) "scp" (by decide),
    index_setKey_ne c "iss" (.str s') "scp" (by decide)]
  simp only [Json.asStr, optionBind_some]
  apply isSome_bind_congr
  intro aud
  apply isSome_bind_congr
  intro azp
  apply isSome_bind_congr
  intro hexp
  apply isSome_bind_congr
  intro iat
  apply isSome_bind_congr
  intro jti
  apply isSome_bind_congr
  intro kid
  apply isSome_bind_congr
  intro name
  apply isSome_bind_congr
  intro owner
  apply isSome_bind_congr
  intro region
  apply isSome_bind_congr
  intro sub
  apply isSome_bind_congr
  intro tenant
  apply isSome_bind_congr
  intro tier
  rfl

/-- Replacing the issuer claim by either accepted issuer string yields the
same validation success. -/
theorem validate_setKey_iss_isOk (c : Json) (sig : Bool) (now : Int) (cid : String) :
    (validate (setKey c "iss" (.str "login.eveonline.com")) sig now cid).isOk =
    (validate (setKey c "iss" (.str "https://login.eveonline.com")) sig now cid).isOk := by
  unfold validate
  rw [decodeChecks_setKey_iss c (.str "login.eveonline.com")
    (.str "https://login.eveonline.com") sig now cid]
  cases hd : decodeChecks (setKey c "iss" (.str "https://login.eveonline.com")) sig now cid with
  | some err => rfl
  | none =>
    rw [index_setKey_self c "iss" (.str "login.eveonline.com"),
      index_setKey_self c "iss" (.str "https://login.eveonline.com")]
    simp only [Json.asStr]
    rw [if_neg (by decide), if_neg (by decide)]
    have hss := tokenClaimsOfJson_setIss_isSome c "login.eveonline.com"
      "https://login.eveonline.com"
    cases ht1 : tokenClaimsOfJson (setKey c "iss" (.str "login.eveonline.com")) <;>
      cases ht2 : tokenClaimsOfJson (setKey c "iss" (.str "https://login.eveonline.com")) <;>
      rw [ht1, ht2] at hss <;> simp_all [Outcome.isOk]

/-- C10 (amended): validation accepts exactly the two issuer strings,
succeeding identically for both; any other issuer is the invalid-JWT
error; a token whose audience contains neither the expected client id nor
the fixed audience string "EVE Online" fails validation; and a token whose
`exp` claim is in the past fails validation. -/
theorem c10_jwt_validation :
    (∀ (c : Json) (sig : Bool) (now : Int) (cid : String),
        (validate (setKey c "iss" (.str "login.eveonline.com")) sig now cid).isOk =
        (validate (setKey c "iss" (.str "https://login.eveonline.com")) sig now cid).isOk) ∧
    (∀ (c : Json) (sig : Bool) (now : Int) (cid s : String),
        decodeChecks c sig now cid = none →
        (Json.index c "iss").asStr = some s →
        s ≠ "login.eveonline.com" → s ≠ "https://login.eveonline.com" →
        validate c sig now cid = .err (.InvalidJWT "JWT issuer is incorrect")) ∧
    (∀ (c : Json) (sig : Bool) (now : Int) (cid s : String),
        decodeChecks c sig now cid = none →
        (Json.index c "iss").asStr = some s →
        (s = "login.eveonline.com" ∨ s = "https://login.eveonline.com") →
        validate c sig now cid =
          (match tokenClaimsOfJson c with
           | some tc => .ok tc
           | none => .err .FailedJsonParse)) ∧
    (∀ (c : Json) (sig : Bool) (now : Int) (cid : String),
        (audMembers c).contains cid = false →
        (audMembers c).contains "EVE Online" = false →
        (validate c sig now cid).isOk = false) ∧
    (∀ (c : Json) (sig : Bool) (now : Int) (cid : String) (ex : Int),
        (Json.index c "exp").asInt = some ex → ex < now →
        (validate c sig now cid).isOk = false) := by
  refine ⟨validate_setKey_iss_isOk, ?_, ?_, ?_, ?_⟩
  · intro c sig now cid s hd hiss hs1 hs2
    unfold validate
    simp only [hd, hiss]
    rw [if_pos ⟨hs1, hs2⟩]
  · intro c sig now cid s hd hiss hacc
    unfold validate
    simp only [hd, hiss]
    rw [if_neg ?hneg]
    case hneg =>
      rintro ⟨h1, h2⟩
      rcases hacc with rfl | rfl
      · exact h1 rfl
      · exact h2 rfl
    cases tokenClaimsOfJson c <;> rfl
  · intro c sig now cid ha1 ha2
    unfold validate
    cases hd : decodeChecks c sig now cid with
    | some err => rfl
    | none =>
      exfalso
      unfold decodeChecks at hd
      split_ifs at hd
      all_goals simp_all
  · intro c sig now cid ex he hlt
    unfold validate
    cases hd : decodeChecks c sig now cid with
    | some err => rfl
    | none =>
      exfalso
      unfold decodeChecks at hd
      rw [he] at hd
      split_ifs at hd
      all_goals simp_all

/-- Fully populated decoded claim set whose audience is only the fixed
string "EVE Online" — it omits the client id. -/
def c10Claims : Json :=
  .obj [("aud", .arr [.str "EVE Online"]),
        ("azp", .str "azp"),
        ("exp", .num 2000),
        ("iat", .num 0),
        ("iss", .str "login.eveonline.com"),
        ("jti", .str "jti"),
        ("kid", .str "kid"),
        ("name", .str "Some Name"),
        ("owner", .str "owner"),
        ("region", .str "world"),
        ("sub", .str "CHARACTER:EVE:123"),
        ("tenant", .str "tranquility"),
        ("tier", .str "live")]

/-- C10 counterexample: a token whose audience list omits the expected
client id ("my_client") but contains the fixed audience string
"EVE Online" VALIDATES SUCCESSFULLY — the audience check passes when
either member is present — contradicting the claim that omitting the
client id fails validation. -/
theorem c10_jwt_validation_cex :
    (validate c10Claims true 0 "my_client").isOk = true ∧
    (audMembers c10Claims).contains "my_client" = false :=
  ⟨rfl, rfl⟩

/-- The same claim set with an unaccepted issuer. -/
def c10ClaimsEvil : Json := setKey c10Claims "iss" (.str "evil.example.com")

/-- Closed witness for C10: the wrong issuer is rejected with the
invalid-JWT error, and an expired token fails validation. -/
theorem c10_jwt_validation_witness :
    validate c10ClaimsEvil true 0 "my_client" =
      .err (.InvalidJWT "JWT issuer is incorrect") ∧
    (validate c10Claims true 3000 "my_client").isOk = false := by
  constructor
  · exact c10_jwt_validation.2.1 c10ClaimsEvil true 0 "my_client" "evil.example.com"
      rfl rfl (by decide) (by decide)
  · exact c10_jwt_validation.2.2.2.2 c10Claims true 3000 "my_client" 2000 rfl (by norm_num)

end Rfesi
